import Mathlib

/-!
Verification of the alarm monitoring engine of `src/frontend/src/App.js`
(calendar alarms application).

The engine lives in `checkAlarms` (App.js lines 171-188), `triggerAlarm`
(lines 190-213), `startAlarmMonitoring` (lines 156-169) and the monitoring
`useEffect` (lines 57-67).  We embed those functions shallowly:

* Instants are milliseconds since the epoch, as produced by
  `Date.prototype.getTime()`, modelled as `Int`.  `new Date(alarm.event_start)`
  yields an Invalid Date (whose `getTime()` is NaN) when the string does not
  parse; every numeric comparison against NaN is false in JavaScript.  We
  model the parse result as `Option Int`, `none` standing for an invalid or
  missing start instant, and the comparison guard returns `false` in that
  case, exactly as the NaN comparisons do.
* `localStorage` is a key/value store `String → Option String`;
  `localStorage.getItem` returns the stored string or `null` (`none`).  The
  guard `!localStorage.getItem(key)` uses JavaScript truthiness: it passes
  when the result is `null` or the empty string, which `jsTruthy` captures.
* `alarms.forEach` runs the callback sequentially over the list, so
  `checkAlarms` is structural recursion over the alarm list threading the
  store and accumulating the alarms for which `triggerAlarm` was invoked.
* A second embedding `checkAlarmsExc` injects environment failures (a
  notification channel throwing, `localStorage.setItem` throwing); the source
  has no try/catch, so a synchronous throw aborts the `forEach` pass, which
  the model makes explicit with an `aborted` flag.
* The timer plumbing (interval handles held in `alarmCheckIntervalRef`, the
  monitoring effect and its cleanup) is modelled as a state machine
  `AppState` driven by `Event`s: a sync of the alarm list (the effect
  re-running), a timer tick, and unmount.
-/

namespace CalendarAlarm

/-- An alarm record as held in the `alarms` React state (App.js line 19) and
produced by the backend: identifier, denormalized event title, event start
instant and lead minutes.  `event_start` is the result of
`new Date(alarm.event_start).getTime()`: `none` models an Invalid Date (NaN),
i.e. a missing or unparseable start string.  `alarm_minutes_before` is an
integer (the CRUD layer stores `parseInt(minutes)`). -/
structure Alarm where
  id : String
  event_title : String
  event_start : Option Int
  alarm_minutes_before : Int
deriving Repr, DecidableEq

/-- Trigger instant in milliseconds, App.js line 176:
`eventTime.getTime() - alarm.alarm_minutes_before * 60000`. -/
def triggerInstant (start : Int) (lead : Int) : Int :=
  start - lead * 60000

/-- The firing-window guard of App.js line 179:
`now >= alarmTime && now < eventTime`.  When the event start is an Invalid
Date both comparisons are against NaN and are false; the `none` branch
models that. -/
def fireCond (now : Int) (a : Alarm) : Bool :=
  match a.event_start with
  | none => false
  | some start =>
    decide (triggerInstant start a.alarm_minutes_before ≤ now) && decide (now < start)

/-- The three states of the spec's Trigger Evaluator contract. -/
inductive AlarmState where
  | Pending
  | Fire
  | Expired
deriving Repr, DecidableEq

/-- The three-way classification carried out by the comparisons of App.js
lines 176-179: `Pending` while `now < alarmTime`, `Fire` while
`alarmTime <= now < eventTime` (the guard of line 179), `Expired` once
`now >= eventTime`.  On an Invalid Date (NaN) no state is reached (`none`):
the guard is simply false. -/
def evaluate (now : Int) (a : Alarm) : Option AlarmState :=
  match a.event_start with
  | none => none
  | some start =>
    if now < triggerInstant start a.alarm_minutes_before then some AlarmState.Pending
    else if now < start then some AlarmState.Fire
    else some AlarmState.Expired

/-- JavaScript truthiness of a `localStorage.getItem` result: `null` and the
empty string are falsy, every other string is truthy. -/
def jsTruthy : Option String → Bool
  | none => false
  | some v => v ≠ ""

/-- The durable key/value store backing `localStorage`. -/
abbrev Store := String → Option String

/-- `localStorage.getItem`. -/
def getItem (s : Store) (k : String) : Option String := s k

/-- `localStorage.setItem`. -/
def setItem (s : Store) (k v : String) : Store :=
  fun k2 => if k2 = k then some v else s k2

/-- The store with no keys set. -/
def emptyStore : Store := fun _ => none

/-- The dedup marker key of App.js line 181: `alarm_triggered_${alarm.id}`. -/
def triggeredKey (a : Alarm) : String :=
  "alarm_triggered_" ++ a.id

/-- Result of one evaluation pass: the updated store and the alarms for which
`triggerAlarm` (Notification Fan-out) was invoked, in invocation order. -/
structure CheckResult where
  store : Store
  fired : List Alarm

/-- One evaluation pass, App.js lines 171-188 (normal semantics, no
environment failures): for each alarm in order, if the firing window contains
`now` and `!localStorage.getItem(triggeredKey)` passes, invoke `triggerAlarm`
and set the marker to `'true'`. -/
def checkAlarms (now : Int) : List Alarm → Store → CheckResult
  | [], s => ⟨s, []⟩
  | a :: rest, s =>
    if fireCond now a = true ∧ jsTruthy (getItem s (triggeredKey a)) = false then
      let r := checkAlarms now rest (setItem s (triggeredKey a) "true")
      ⟨r.store, a :: r.fired⟩
    else
      checkAlarms now rest s

/-! ### Basic facts about the evaluator -/

theorem evaluate_pending_iff {a : Alarm} {start : Int}
    (hs : a.event_start = some start) (now : Int) :
    evaluate now a = some AlarmState.Pending ↔
      now < triggerInstant start a.alarm_minutes_before := by
  simp only [evaluate, hs]
  split_ifs with h1 h2 <;> simp_all

theorem evaluate_fire_iff {a : Alarm} {start : Int}
    (hs : a.event_start = some start) (now : Int) :
    evaluate now a = some AlarmState.Fire ↔
      triggerInstant start a.alarm_minutes_before ≤ now ∧ now < start := by
  simp only [evaluate, hs]
  split_ifs with h1 h2 <;> simp_all

theorem evaluate_expired_iff {a : Alarm} {start : Int}
    (hs : a.event_start = some start) (hl : 0 ≤ a.alarm_minutes_before)
    (now : Int) :
    evaluate now a = some AlarmState.Expired ↔ start ≤ now := by
  have : triggerInstant start a.alarm_minutes_before ≤ start := by
    unfold triggerInstant; omega
  simp only [evaluate, hs]
  split_ifs with h1 h2 <;> simp_all
  omega

theorem evaluate_expired_of {a : Alarm} {start : Int}
    (hs : a.event_start = some start) {now : Int}
    (h1 : triggerInstant start a.alarm_minutes_before ≤ now)
    (h2 : start ≤ now) :
    evaluate now a = some AlarmState.Expired := by
  simp only [evaluate, hs]
  split_ifs with hx hy <;> first | omega | rfl

theorem fireCond_iff {a : Alarm} {start : Int}
    (hs : a.event_start = some start) (now : Int) :
    fireCond now a = true ↔
      triggerInstant start a.alarm_minutes_before ≤ now ∧ now < start := by
  unfold fireCond
  rw [hs]
  simp

theorem fireCond_eq_fire {a : Alarm} {start : Int}
    (hs : a.event_start = some start) (now : Int) :
    fireCond now a = true ↔ evaluate now a = some AlarmState.Fire := by
  rw [fireCond_iff hs, evaluate_fire_iff hs]

/-- C1: for every alarm with a valid start instant and lead minutes ≥ 1 and
every instant `now`, the evaluation in `checkAlarms` partitions time into
exactly one of the three states: `Pending` iff `now < trigger_instant`,
`Fire` iff `trigger_instant ≤ now < event.start` (exactly the guard of
App.js line 179), `Expired` iff `now ≥ event.start`; the ranges are exhaustive
and mutually exclusive because `evaluate` returns exactly one state and each
iff's right-hand side covers a disjoint range.  At exactly the trigger
instant the state is `Fire` and at exactly `event.start` it is `Expired`. -/
theorem evaluate_partitions (a : Alarm) (start : Int)
    (hs : a.event_start = some start) (hl : 1 ≤ a.alarm_minutes_before)
    (now : Int) :
    (evaluate now a = some AlarmState.Pending ↔
      now < triggerInstant start a.alarm_minutes_before) ∧
    (evaluate now a = some AlarmState.Fire ↔
      triggerInstant start a.alarm_minutes_before ≤ now ∧ now < start) ∧
    (evaluate now a = some AlarmState.Expired ↔ start ≤ now) ∧
    (fireCond now a = true ↔ evaluate now a = some AlarmState.Fire) ∧
    evaluate (triggerInstant start a.alarm_minutes_before) a =
      some AlarmState.Fire ∧
    evaluate start a = some AlarmState.Expired := by
  have htrig : triggerInstant start a.alarm_minutes_before < start := by
    unfold triggerInstant; omega
  refine ⟨evaluate_pending_iff hs now, evaluate_fire_iff hs now,
    evaluate_expired_iff hs (by omega) now, fireCond_eq_fire hs now, ?_, ?_⟩
  · exact (evaluate_fire_iff hs _).mpr ⟨le_refl _, htrig⟩
  · exact (evaluate_expired_iff hs (by omega) start).mpr (le_refl _)

/-- Witness for C1, Scenario A of the spec: event start 10:00:00 (modelled as
36000000 ms), lead 15 minutes, so the trigger instant is 09:45:00
(35100000 ms); evaluation at 09:44:59 is `Pending`, at 09:45:00 `Fire`, at
10:00:00 `Expired`. -/
theorem evaluate_partitions_witness :
    (let a : Alarm := ⟨"a1", "Standup", some 36000000, 15⟩
     evaluate 35099000 a = some AlarmState.Pending ∧
     evaluate 35100000 a = some AlarmState.Fire ∧
     evaluate 36000000 a = some AlarmState.Expired) := by
  have h1 := evaluate_partitions ⟨"a1", "Standup", some 36000000, 15⟩
    36000000 rfl (by decide) 35099000
  refine ⟨h1.1.mpr (by decide), ?_, ?_⟩
  · have h2 := evaluate_partitions ⟨"a1", "Standup", some 36000000, 15⟩
      36000000 rfl (by decide) 35100000
    exact h2.2.2.2.2.1
  · have h3 := evaluate_partitions ⟨"a1", "Standup", some 36000000, 15⟩
      36000000 rfl (by decide) 36000000
    exact h3.2.2.2.2.2

/-- C6: monotonicity of the classification.  If the evaluation returns `Fire`
at time `t`, then at any later time `t' > t` it returns `Fire` or `Expired`,
never `Pending`; and being a pure function of `(now, alarm)`, repeated calls
cannot change past outcomes. -/
theorem evaluate_monotone (a : Alarm) (start : Int)
    (hs : a.event_start = some start) (t t' : Int)
    (hF : evaluate t a = some AlarmState.Fire) (hlt : t < t') :
    evaluate t' a ≠ some AlarmState.Pending ∧
    (evaluate t' a = some AlarmState.Fire ∨
     evaluate t' a = some AlarmState.Expired) := by
  have h := (evaluate_fire_iff hs t).mp hF
  constructor
  · intro hp
    have := (evaluate_pending_iff hs t').mp hp
    omega
  · by_cases hlt2 : t' < start
    · exact Or.inl ((evaluate_fire_iff hs t').mpr ⟨by omega, hlt2⟩)
    · exact Or.inr (evaluate_expired_of hs (by omega) (by omega))

/-- Witness for C6: the alarm of Scenario A fires at 09:45:00 and at the
later instant 09:50:00 the evaluation is not `Pending`. -/
theorem evaluate_monotone_witness :
    evaluate 35100000 (⟨"a1", "Standup", some 36000000, 15⟩ : Alarm) =
      some AlarmState.Fire ∧
    (35100000 : Int) < 35400000 ∧
    evaluate 35400000 (⟨"a1", "Standup", some 36000000, 15⟩ : Alarm) ≠
      some AlarmState.Pending := by
  have hF : evaluate 35100000 (⟨"a1", "Standup", some 36000000, 15⟩ : Alarm) =
      some AlarmState.Fire := by decide
  exact ⟨hF, by decide,
    (evaluate_monotone ⟨"a1", "Standup", some 36000000, 15⟩ 36000000 rfl
      35100000 35400000 hF (by decide)).1⟩

/-! ### Facts about one evaluation pass -/

theorem mem_fired {now : Int} :
    ∀ (l : List Alarm) (s : Store) (b : Alarm),
      b ∈ (checkAlarms now l s).fired → b ∈ l ∧ fireCond now b = true := by
  intro l
  induction l with
  | nil =>
    intro s b h
    simp [checkAlarms] at h
  | cons a rest ih =>
    intro s b h
    by_cases hc : fireCond now a = true ∧
        jsTruthy (getItem s (triggeredKey a)) = false
    · rw [checkAlarms, if_pos hc] at h
      rcases List.mem_cons.mp h with rfl | h2
      · exact ⟨List.mem_cons_self _ _, hc.1⟩
      · rcases ih _ b h2 with ⟨hm, hf⟩
        exact ⟨List.mem_cons_of_mem _ hm, hf⟩
    · rw [checkAlarms, if_neg hc] at h
      rcases ih _ b h with ⟨hm, hf⟩
      exact ⟨List.mem_cons_of_mem _ hm, hf⟩

/-- C7: a malformed alarm — lead minutes ≤ 0, or a missing/invalid start
instant — never passes the firing-window guard at any instant, so the
Notification Fan-out is never invoked for it and no dedup marker is written;
the pass simply moves on to the rest of the list, so the remaining alarms are
still evaluated exactly as they would be without the malformed entry. -/
theorem malformed_skipped (a : Alarm)
    (h : a.alarm_minutes_before ≤ 0 ∨ a.event_start = none) (now : Int) :
    fireCond now a = false ∧
    (∀ (rest : List Alarm) (s : Store),
      checkAlarms now (a :: rest) s = checkAlarms now rest s) ∧
    (∀ (l : List Alarm) (s : Store), a ∉ (checkAlarms now l s).fired) := by
  have hf : fireCond now a = false := by
    rcases h with hlead | hnone
    · unfold fireCond
      cases he : a.event_start with
      | none => rfl
      | some start =>
        have : ¬(triggerInstant start a.alarm_minutes_before ≤ now ∧
            now < start) := by
          unfold triggerInstant; omega
        simp only [Bool.and_eq_true, decide_eq_true_eq]
        simpa using this
    · unfold fireCond
      rw [hnone]
  refine ⟨hf, ?_, ?_⟩
  · intro rest s
    rw [checkAlarms, if_neg]
    rintro ⟨h1, _⟩
    rw [hf] at h1
    exact Bool.false_ne_true h1
  · intro l s hmem
    have := (mem_fired l s a hmem).2
    rw [hf] at this
    exact Bool.false_ne_true this

/-- Witness for C7: a lead-0 alarm inside what would otherwise be its window
is skipped, and a well-formed second alarm still fires in the same pass. -/
theorem malformed_skipped_witness :
    ((⟨"bad", "B", some 36000000, 0⟩ : Alarm).alarm_minutes_before ≤ 0 ∨
      (⟨"bad", "B", some 36000000, 0⟩ : Alarm).event_start = none) ∧
    fireCond 35100000 (⟨"bad", "B", some 36000000, 0⟩ : Alarm) = false ∧
    checkAlarms 35100000
        [⟨"bad", "B", some 36000000, 0⟩, ⟨"a1", "Standup", some 36000000, 15⟩]
        emptyStore =
      checkAlarms 35100000 [⟨"a1", "Standup", some 36000000, 15⟩] emptyStore ∧
    (⟨"a1", "Standup", some 36000000, 15⟩ : Alarm) ∈
      (checkAlarms 35100000 [⟨"a1", "Standup", some 36000000, 15⟩]
        emptyStore).fired := by
  have h := malformed_skipped ⟨"bad", "B", some 36000000, 0⟩
    (Or.inl (by decide)) 35100000
  refine ⟨Or.inl (by decide), h.1, h.2.1 _ _, ?_⟩
  rw [checkAlarms, if_pos (by constructor <;> rfl)]
  exact List.mem_cons_self _ _

theorem setItem_self (s : Store) (k v : String) : setItem s k v k = some v := by
  simp [setItem]

theorem setItem_other (s : Store) {k k2 : String} (v : String) (h : k2 ≠ k) :
    setItem s k v k2 = s k2 := by
  simp [setItem, h]

theorem triggeredKey_inj {a b : Alarm} (h : triggeredKey a = triggeredKey b) :
    a.id = b.id := by
  have hd := congrArg String.data h
  simp only [triggeredKey, String.data_append] at hd
  exact String.ext (List.append_cancel_left hd)

theorem triggeredKey_congr {a b : Alarm} (h : a.id = b.id) :
    triggeredKey a = triggeredKey b := by
  unfold triggeredKey
  rw [h]

/-- Characterization of the store after one evaluation pass: every key is
either untouched, or was falsy before the pass and now holds `"true"` and is
the dedup marker key of some alarm of the list whose firing window contains
`now`. -/
theorem checkAlarms_store_spec {now : Int} :
    ∀ (l : List Alarm) (s : Store) (k : String),
      (checkAlarms now l s).store k = s k ∨
      (jsTruthy (s k) = false ∧ (checkAlarms now l s).store k = some "true" ∧
        ∃ a, a ∈ l ∧ fireCond now a = true ∧ k = triggeredKey a) := by
  intro l
  induction l with
  | nil => intro s k; left; rfl
  | cons a rest ih =>
    intro s k
    by_cases hc : fireCond now a = true ∧
        jsTruthy (getItem s (triggeredKey a)) = false
    · rw [checkAlarms, if_pos hc]
      rcases ih (setItem s (triggeredKey a) "true") k with h | ⟨h1, h2, b, hb, hfb, hkb⟩
      · by_cases hk : k = triggeredKey a
        · right
          subst hk
          refine ⟨hc.2, ?_, a, List.mem_cons_self _ _, hc.1, rfl⟩
          rw [h, setItem_self]
        · left
          rw [h, setItem_other _ _ hk]
      · right
        by_cases hk : k = triggeredKey a
        · subst hk
          rw [setItem_self] at h1
          simp [jsTruthy] at h1
        · rw [setItem_other _ _ hk] at h1
          exact ⟨h1, h2, b, List.mem_cons_of_mem _ hb, hfb, hkb⟩
    · rw [checkAlarms, if_neg hc]
      rcases ih s k with h | ⟨h1, h2, b, hb, hfb, hkb⟩
      · left; exact h
      · right; exact ⟨h1, h2, b, List.mem_cons_of_mem _ hb, hfb, hkb⟩

/-- A marker that holds `"true"` before a pass still holds `"true"` after it:
the pass never deletes and only ever writes `"true"`. -/
theorem store_true_persists {now : Int} (l : List Alarm) (s : Store)
    (k : String) (h : s k = some "true") :
    (checkAlarms now l s).store k = some "true" := by
  rcases checkAlarms_store_spec l s k with h2 | ⟨_, h2, _⟩
  · rw [h2, h]
  · exact h2

/-- An alarm fires in a pass only if its dedup marker was falsy (absent or
empty) in the store the pass started from. -/
theorem fired_marker_falsy {now : Int} :
    ∀ (l : List Alarm) (s : Store) (b : Alarm),
      b ∈ (checkAlarms now l s).fired → jsTruthy (s (triggeredKey b)) = false := by
  intro l
  induction l with
  | nil =>
    intro s b h
    simp [checkAlarms] at h
  | cons a rest ih =>
    intro s b h
    by_cases hc : fireCond now a = true ∧
        jsTruthy (getItem s (triggeredKey a)) = false
    · rw [checkAlarms, if_pos hc] at h
      rcases List.mem_cons.mp h with rfl | h2
      · exact hc.2
      · have hmid := ih _ b h2
        by_cases hk : triggeredKey b = triggeredKey a
        · rw [hk, setItem_self] at hmid
          simp [jsTruthy] at hmid
        · rwa [setItem_other _ _ hk] at hmid
    · rw [checkAlarms, if_neg hc] at h
      exact ih _ b h

/-- If an in-window alarm starts the pass with a falsy marker, the pass ends
with its marker set to `"true"` (either the alarm itself or an earlier
same-key alarm wrote it). -/
theorem store_marked {now : Int} :
    ∀ (l : List Alarm) (s : Store) (a : Alarm), a ∈ l →
      fireCond now a = true → jsTruthy (s (triggeredKey a)) = false →
      (checkAlarms now l s).store (triggeredKey a) = some "true" := by
  intro l
  induction l with
  | nil =>
    intro s a hmem
    simp at hmem
  | cons h rest ih =>
    intro s a hmem hf hu
    by_cases hc : fireCond now h = true ∧
        jsTruthy (getItem s (triggeredKey h)) = false
    · rw [checkAlarms, if_pos hc]
      by_cases hk : triggeredKey a = triggeredKey h
      · apply store_true_persists
        rw [hk, setItem_self]
      · rcases List.mem_cons.mp hmem with rfl | hmem2
        · exact absurd rfl hk
        · apply ih _ a hmem2 hf
          rwa [setItem_other _ _ hk]
    · rw [checkAlarms, if_neg hc]
      rcases List.mem_cons.mp hmem with rfl | hmem2
      · exact absurd ⟨hf, hu⟩ hc
      · exact ih _ a hmem2 hf hu

/-- If an in-window alarm starts the pass with a falsy marker, some alarm
with the same marker key is fired during the pass. -/
theorem exists_fired {now : Int} :
    ∀ (l : List Alarm) (s : Store) (a : Alarm), a ∈ l →
      fireCond now a = true → jsTruthy (s (triggeredKey a)) = false →
      ∃ b, b ∈ (checkAlarms now l s).fired ∧ triggeredKey b = triggeredKey a := by
  intro l
  induction l with
  | nil =>
    intro s a hmem
    simp at hmem
  | cons h rest ih =>
    intro s a hmem hf hu
    by_cases hc : fireCond now h = true ∧
        jsTruthy (getItem s (triggeredKey h)) = false
    · rw [checkAlarms, if_pos hc]
      by_cases hk : triggeredKey a = triggeredKey h
      · exact ⟨h, List.mem_cons_self _ _, hk.symm⟩
      · rcases List.mem_cons.mp hmem with rfl | hmem2
        · exact absurd rfl hk
        · have hu2 : jsTruthy
              ((setItem s (triggeredKey h) "true") (triggeredKey a)) = false := by
            rwa [setItem_other _ _ hk]
          rcases ih _ a hmem2 hf hu2 with ⟨b, hb, hbk⟩
          exact ⟨b, List.mem_cons_of_mem _ hb, hbk⟩
    · rw [checkAlarms, if_neg hc]
      rcases List.mem_cons.mp hmem with rfl | hmem2
      · exact absurd ⟨hf, hu⟩ hc
      · exact ih _ a hmem2 hf hu

/-- A pass starting with a truthy marker at key `k` fires no alarm whose
marker key is `k`. -/
theorem fired_countKey_zero {now : Int} :
    ∀ (l : List Alarm) (s : Store) (k : String), jsTruthy (s k) = true →
      ((checkAlarms now l s).fired.countP (fun b => triggeredKey b == k)) = 0 := by
  intro l
  induction l with
  | nil =>
    intro s k _
    simp [checkAlarms]
  | cons a rest ih =>
    intro s k hT
    by_cases hc : fireCond now a = true ∧
        jsTruthy (getItem s (triggeredKey a)) = false
    · rw [checkAlarms, if_pos hc]
      have hk : triggeredKey a ≠ k := by
        intro he
        rw [getItem, he, hT] at hc
        simp at hc
      have hmid : jsTruthy ((setItem s (triggeredKey a) "true") k) = true := by
        rwa [setItem_other _ _ (Ne.symm hk)]
      simp only [List.countP_cons]
      rw [ih _ k hmid]
      simp [hk]
    · rw [checkAlarms, if_neg hc]
      exact ih _ k hT

/-- At most one alarm with a given marker key fires in a single pass: the
first one to fire writes `"true"` to the key, which blocks the rest. -/
theorem fired_countKey_le_one {now : Int} :
    ∀ (l : List Alarm) (s : Store) (k : String),
      ((checkAlarms now l s).fired.countP (fun b => triggeredKey b == k)) ≤ 1 := by
  intro l
  induction l with
  | nil =>
    intro s k
    simp [checkAlarms]
  | cons a rest ih =>
    intro s k
    by_cases hc : fireCond now a = true ∧
        jsTruthy (getItem s (triggeredKey a)) = false
    · rw [checkAlarms, if_pos hc]
      by_cases hk : triggeredKey a = k
      · have hmid : jsTruthy ((setItem s (triggeredKey a) "true") k) = true := by
          rw [← hk, setItem_self]
          rfl
        simp only [List.countP_cons]
        rw [fired_countKey_zero _ _ k hmid]
        simp [hk]
      · simp only [List.countP_cons]
        have := ih (setItem s (triggeredKey a) "true") k
        simp [hk]
        omega
    · rw [checkAlarms, if_neg hc]
      exact ih s k

/-- C2: dedup idempotence.  First conjunct: once the marker
`alarm_triggered_<id>` holds `"true"` in the durable store — written earlier
in the same run or before a restart, the store being the only input a fresh
pass consults — no evaluation pass at any instant, over any alarm list,
invokes the Notification Fan-out for an alarm with that identifier again.
Second conjunct (Scenario B): two ticks at `t1` and `t2` with no restart
between them — the second pass reads the store the first one produced —
invoke the fan-out exactly once total for the alarm's marker key, given the
alarm is listed, its window contains `t1`, and its marker starts falsy. -/
theorem dedup_idempotent (a : Alarm) (alarms : List Alarm) (s : Store)
    (t1 t2 : Int) (hmem : a ∈ alarms) (hf1 : fireCond t1 a = true)
    (hunset : jsTruthy (s (triggeredKey a)) = false) :
    (∀ (l : List Alarm) (s2 : Store) (now : Int),
        s2 (triggeredKey a) = some "true" →
        ∀ b, b ∈ (checkAlarms now l s2).fired → b.id ≠ a.id) ∧
    ((checkAlarms t1 alarms s).fired.countP
        (fun b => triggeredKey b == triggeredKey a) +
      ((checkAlarms t2 alarms
          (checkAlarms t1 alarms s).store).fired.countP
        (fun b => triggeredKey b == triggeredKey a)) = 1) := by
  constructor
  · intro l s2 now hmark b hb hid
    have hfalsy := fired_marker_falsy l s2 b hb
    rw [triggeredKey_congr hid, hmark] at hfalsy
    simp [jsTruthy] at hfalsy
  · have h1le := @fired_countKey_le_one t1 alarms s (triggeredKey a)
    have h1ge : 0 < (checkAlarms t1 alarms s).fired.countP
        (fun b => triggeredKey b == triggeredKey a) := by
      rcases exists_fired alarms s a hmem hf1 hunset with ⟨b, hb, hbk⟩
      exact List.countP_pos_iff.mpr ⟨b, hb, by simp [hbk]⟩
    have hmark := store_marked alarms s a hmem hf1 hunset
    have h2 : ((checkAlarms t2 alarms
        (checkAlarms t1 alarms s).store).fired.countP
        (fun b => triggeredKey b == triggeredKey a)) = 0 := by
      apply fired_countKey_zero
      rw [hmark]
      rfl
    omega

/-- Witness for C2, Scenario B: the Scenario A alarm, ticks at 09:45:05 and
09:45:15, an initially empty store; and once the marker is `"true"` a pass
cannot fire the id again. -/
theorem dedup_idempotent_witness :
    ((⟨"a1", "Standup", some 36000000, 15⟩ : Alarm) ∈
      [(⟨"a1", "Standup", some 36000000, 15⟩ : Alarm)] ∧
     fireCond 35105000 (⟨"a1", "Standup", some 36000000, 15⟩ : Alarm) = true ∧
     jsTruthy (emptyStore
       (triggeredKey ⟨"a1", "Standup", some 36000000, 15⟩)) = false) ∧
    ((checkAlarms 35105000 [⟨"a1", "Standup", some 36000000, 15⟩]
        emptyStore).fired.countP
        (fun b => triggeredKey b ==
          triggeredKey ⟨"a1", "Standup", some 36000000, 15⟩) +
      ((checkAlarms 35115000 [⟨"a1", "Standup", some 36000000, 15⟩]
          (checkAlarms 35105000 [⟨"a1", "Standup", some 36000000, 15⟩]
            emptyStore).store).fired.countP
        (fun b => triggeredKey b ==
          triggeredKey ⟨"a1", "Standup", some 36000000, 15⟩)) = 1) := by
  have h := dedup_idempotent ⟨"a1", "Standup", some 36000000, 15⟩
    [⟨"a1", "Standup", some 36000000, 15⟩] emptyStore 35105000 35115000
    (List.mem_cons_self _ _) (by decide) (by rfl)
  exact ⟨⟨List.mem_cons_self _ _, by decide, by rfl⟩, h.2⟩

/-- C10 as stated is falsified by an empty-string marker value: the guard
`!localStorage.getItem(key)` treats the empty string as falsy, so a pass
overwrites a key that was previously set (to `""`) rather than writing only
previously unset keys.  Before the pass the marker key holds `some ""` (set,
not unset); after the pass it holds `some "true"`. -/
theorem frame_effect_counterexample :
    (fun k => if k = "alarm_triggered_a1" then some "" else none : Store)
        "alarm_triggered_a1" = some "" ∧
    (checkAlarms 35100000 [⟨"a1", "Standup", some 36000000, 15⟩]
        (fun k => if k = "alarm_triggered_a1" then some "" else none)).store
        "alarm_triggered_a1" = some "true" := by
  constructor
  · rfl
  · rfl

/-- C10 (amended): an evaluation pass leaves the alarm list untouched (the
model consumes it immutably, as `alarms.forEach` does) and its only store
mutation is writing `"true"` to `alarm_triggered_<id>` keys of listed alarms
whose firing window contains `now` and whose key was previously falsy —
absent or set to the empty string, which the guard `!localStorage.getItem`
treats as not yet fired.  No key is deleted, no other key or value is ever
written. -/
theorem frame_effect (now : Int) (l : List Alarm) (s : Store) (k : String) :
    (checkAlarms now l s).store k = s k ∨
    (jsTruthy (s k) = false ∧ (checkAlarms now l s).store k = some "true" ∧
      ∃ a, a ∈ l ∧ fireCond now a = true ∧ k = triggeredKey a) :=
  checkAlarms_store_spec l s k

/-! ### Failure injection: notification channels and store writes that throw

The source has no try/catch in `triggerAlarm` or `checkAlarms`; the only
failure it isolates is the audio playback promise, whose rejection is
swallowed by `.catch(err => console.error(...))` (App.js line 193).  A
synchronous throw anywhere else propagates out of the `forEach` callback and
aborts the whole pass.  `Env` describes which environment calls fail. -/

/-- The three notification channels of App.js lines 190-213. -/
inductive Channel where
  | audio
  | banner
  | osNotif
deriving Repr, DecidableEq

/-- Environment behaviour for one `triggerAlarm`/`checkAlarms` run:
`audioPresent` is `audioRef.current` being non-null; `audioRejects` makes the
`play()` promise reject (caught by the source's `.catch`); `bannerThrows`
makes `toast.error` throw synchronously; `notifPermission` is
`'Notification' in window && Notification.permission === 'granted'`;
`notifThrows` makes `new Notification(...)` throw; `writeThrows k` makes
`localStorage.setItem(k, ...)` throw (e.g. quota exceeded). -/
structure Env where
  audioPresent : Bool
  audioRejects : Bool
  bannerThrows : Bool
  notifPermission : Bool
  notifThrows : Bool
  writeThrows : String → Bool

/-- Outcome of one `triggerAlarm` call: the channels that completed
delivery, and whether a synchronous exception escaped the function. -/
structure TriggerOutcome where
  ran : List Channel
  threw : Bool
deriving Repr, DecidableEq

/-- `triggerAlarm`, App.js lines 190-213, with failure injection.  The audio
channel runs first and its rejection is caught, so it never throws and never
stops the rest.  `toast.error` runs next; a synchronous throw there escapes
(no try/catch), skipping the OS-notification channel.  The OS channel runs
only when permission is granted, and its throw likewise escapes. -/
def triggerAlarm (env : Env) : TriggerOutcome :=
  let ran0 := if env.audioPresent && !env.audioRejects then [Channel.audio] else []
  if env.bannerThrows then ⟨ran0, true⟩
  else
    let ran1 := ran0 ++ [Channel.banner]
    if env.notifPermission then
      if env.notifThrows then ⟨ran1, true⟩
      else ⟨ran1 ++ [Channel.osNotif], false⟩
    else ⟨ran1, false⟩

/-- Result of an evaluation pass under failure injection: the store, the
alarms whose fan-out was invoked (even if it then threw), and whether the
pass was aborted by an escaping exception. -/
structure CheckExcResult where
  store : Store
  fired : List Alarm
  aborted : Bool

/-- One evaluation pass of App.js lines 171-188 with failure injection.  An
exception escaping `triggerAlarm(alarm)` aborts the `forEach` before
`localStorage.setItem` runs, so the marker stays unwritten and the remaining
alarms are not visited; a throwing `setItem` likewise aborts with the store
unchanged. -/
def checkAlarmsExc (env : Env) (now : Int) : List Alarm → Store → CheckExcResult
  | [], s => ⟨s, [], false⟩
  | a :: rest, s =>
    if fireCond now a = true ∧ jsTruthy (getItem s (triggeredKey a)) = false then
      if (triggerAlarm env).threw = true then ⟨s, [a], true⟩
      else if env.writeThrows (triggeredKey a) = true then ⟨s, [a], true⟩
      else
        let r := checkAlarmsExc env now rest (setItem s (triggeredKey a) "true")
        ⟨r.store, a :: r.fired, r.aborted⟩
    else
      checkAlarmsExc env now rest s

theorem checkAlarmsExc_store_true_persists (env : Env) (now : Int) :
    ∀ (l : List Alarm) (s : Store) (k : String), s k = some "true" →
      (checkAlarmsExc env now l s).store k = some "true" := by
  intro l
  induction l with
  | nil =>
    intro s k h
    exact h
  | cons a rest ih =>
    intro s k h
    by_cases hc : fireCond now a = true ∧
        jsTruthy (getItem s (triggeredKey a)) = false
    · rw [checkAlarmsExc, if_pos hc]
      by_cases ht : (triggerAlarm env).threw = true
      · rw [if_pos ht]; exact h
      · rw [if_neg ht]
        by_cases hw : env.writeThrows (triggeredKey a) = true
        · rw [if_pos hw]; exact h
        · rw [if_neg hw]
          apply ih
          by_cases hk : k = triggeredKey a
          · rw [hk, setItem_self]
          · rw [setItem_other _ _ hk]; exact h
    · rw [checkAlarmsExc, if_neg hc]
      exact ih s k h

/-- C3 fails as stated: with notification permission granted and an in-app
banner (`toast.error`) that throws — every other channel healthy — the
OS-notification channel never runs, the exception escapes `triggerAlarm`,
and the pass aborts before `localStorage.setItem`, so `mark_fired` is not
recorded for the alarm whose fan-out just ran. -/
theorem channel_isolation_counterexample :
    Channel.osNotif ∉
      (triggerAlarm ⟨true, false, true, true, false, fun _ => false⟩).ran ∧
    (triggerAlarm ⟨true, false, true, true, false, fun _ => false⟩).threw = true ∧
    (checkAlarmsExc ⟨true, false, true, true, false, fun _ => false⟩ 35100000
        [⟨"a1", "Standup", some 36000000, 15⟩] emptyStore).store
        (triggeredKey ⟨"a1", "Standup", some 36000000, 15⟩) = none ∧
    (checkAlarmsExc ⟨true, false, true, true, false, fun _ => false⟩ 35100000
        [⟨"a1", "Standup", some 36000000, 15⟩] emptyStore).aborted = true := by
  refine ⟨by decide, by decide, ?_, ?_⟩ <;> rfl

/-- C3 (amended): only the audio channel's failure is isolated.  Whatever the
audio element does — absent, or its `play()` promise rejecting, which the
source catches — `triggerAlarm` does not throw, the in-app banner runs, the
OS notification runs whenever permission is granted, and the dedup marker is
recorded.  A synchronous throw in the banner or OS-notification channel, by
contrast, escapes `triggerAlarm` (no try/catch) and prevents both any later
channel and the `mark_fired` write, as the counterexample shows. -/
theorem channel_isolation_amended (env : Env)
    (hb : env.bannerThrows = false) (hn : env.notifThrows = false)
    (a : Alarm) (rest : List Alarm) (s : Store) (now : Int)
    (hw : env.writeThrows (triggeredKey a) = false)
    (hf : fireCond now a = true)
    (hu : jsTruthy (getItem s (triggeredKey a)) = false) :
    (triggerAlarm env).threw = false ∧
    Channel.banner ∈ (triggerAlarm env).ran ∧
    (env.notifPermission = true →
      Channel.osNotif ∈ (triggerAlarm env).ran) ∧
    (checkAlarmsExc env now (a :: rest) s).store (triggeredKey a) = some "true" := by
  have htrig : (triggerAlarm env).threw = false := by
    simp only [triggerAlarm, hb, if_false, Bool.false_eq_true]
    split_ifs <;> simp_all
  refine ⟨htrig, ?_, ?_, ?_⟩
  · simp only [triggerAlarm, hb, if_false, Bool.false_eq_true]
    split_ifs <;> simp
  · intro hp
    simp only [triggerAlarm, hb, hp, hn, if_false, if_true,
      Bool.false_eq_true, Bool.true_eq_false]
    simp
  · rw [checkAlarmsExc, if_pos ⟨hf, hu⟩, if_neg (by rw [htrig]; exact Bool.false_ne_true),
      if_neg (by rw [hw]; exact Bool.false_ne_true)]
    apply checkAlarmsExc_store_true_persists
    exact setItem_self _ _ _

/-- Witness for C3 (amended): audio element present and its playback promise
rejecting, banner and OS notification healthy, permission granted — the
fan-out completes both remaining channels and the marker is recorded. -/
theorem channel_isolation_amended_witness :
    ((⟨true, true, false, true, false, fun _ => false⟩ : Env).bannerThrows = false ∧
     (⟨true, true, false, true, false, fun _ => false⟩ : Env).notifThrows = false ∧
     fireCond 35100000 (⟨"a1", "Standup", some 36000000, 15⟩ : Alarm) = true) ∧
    ((triggerAlarm ⟨true, true, false, true, false, fun _ => false⟩).threw = false ∧
     Channel.banner ∈
       (triggerAlarm ⟨true, true, false, true, false, fun _ => false⟩).ran ∧
     ((⟨true, true, false, true, false, fun _ => false⟩ : Env).notifPermission = true →
       Channel.osNotif ∈
         (triggerAlarm ⟨true, true, false, true, false, fun _ => false⟩).ran) ∧
     (checkAlarmsExc ⟨true, true, false, true, false, fun _ => false⟩ 35100000
         [⟨"a1", "Standup", some 36000000, 15⟩] emptyStore).store
         (triggeredKey ⟨"a1", "Standup", some 36000000, 15⟩) = some "true") := by
  refine ⟨⟨rfl, rfl, by decide⟩, ?_⟩
  exact channel_isolation_amended ⟨true, true, false, true, false, fun _ => false⟩
    rfl rfl ⟨"a1", "Standup", some 36000000, 15⟩ [] emptyStore 35100000
    rfl (by decide) rfl

/-- C4 fails as stated: with `localStorage.setItem` throwing for the first
alarm's marker key, the pass aborts and the second alarm — in its window
with its marker unset, so it would have fired — is never evaluated. -/
theorem write_failure_counterexample :
    (checkAlarmsExc ⟨true, false, false, false, false,
        fun k => k == "alarm_triggered_a1"⟩ 35100000
      [⟨"a1", "Standup", some 36000000, 15⟩, ⟨"a2", "Retro", some 36000000, 20⟩]
      emptyStore).aborted = true ∧
    (⟨"a2", "Retro", some 36000000, 20⟩ : Alarm) ∉
      (checkAlarmsExc ⟨true, false, false, false, false,
          fun k => k == "alarm_triggered_a1"⟩ 35100000
        [⟨"a1", "Standup", some 36000000, 15⟩, ⟨"a2", "Retro", some 36000000, 20⟩]
        emptyStore).fired ∧
    fireCond 35100000 (⟨"a2", "Retro", some 36000000, 20⟩ : Alarm) = true ∧
    jsTruthy (emptyStore
      (triggeredKey ⟨"a2", "Retro", some 36000000, 20⟩)) = false := by
  refine ⟨by decide, by decide, by decide, rfl⟩

/-- C4 (amended): a throwing Dedup Store write for one alarm escapes the
`forEach` callback and aborts the evaluation pass on the spot: the store is
left exactly as it was (the marker stays unwritten — the false-negative
direction, a later pass can still detect the fire), only that alarm's
fan-out was invoked, and the remaining alarms are not evaluated in that
pass. -/
theorem write_failure_aborts (env : Env) (a : Alarm) (rest : List Alarm)
    (s : Store) (now : Int)
    (hf : fireCond now a = true)
    (hu : jsTruthy (getItem s (triggeredKey a)) = false)
    (ht : (triggerAlarm env).threw = false)
    (hw : env.writeThrows (triggeredKey a) = true) :
    checkAlarmsExc env now (a :: rest) s = ⟨s, [a], true⟩ := by
  rw [checkAlarmsExc, if_pos ⟨hf, hu⟩,
    if_neg (by rw [ht]; exact Bool.false_ne_true), if_pos hw]

/-- Witness for C4 (amended): the counterexample configuration, where the
aborting pass returns the untouched store, the single fan-out and the abort
flag. -/
theorem write_failure_aborts_witness :
    (fireCond 35100000 (⟨"a1", "Standup", some 36000000, 15⟩ : Alarm) = true ∧
     (⟨true, false, false, false, false, fun k => k == "alarm_triggered_a1"⟩ :
        Env).writeThrows
       (triggeredKey ⟨"a1", "Standup", some 36000000, 15⟩) = true) ∧
    checkAlarmsExc ⟨true, false, false, false, false,
        fun k => k == "alarm_triggered_a1"⟩ 35100000
      [⟨"a1", "Standup", some 36000000, 15⟩, ⟨"a2", "Retro", some 36000000, 20⟩]
      emptyStore =
      ⟨emptyStore, [⟨"a1", "Standup", some 36000000, 15⟩], true⟩ := by
  refine ⟨⟨by decide, by decide⟩, ?_⟩
  exact write_failure_aborts ⟨true, false, false, false, false,
      fun k => k == "alarm_triggered_a1"⟩
    ⟨"a1", "Standup", some 36000000, 15⟩ [⟨"a2", "Retro", some 36000000, 20⟩]
    emptyStore 35100000 (by decide) rfl (by decide) (by decide)

/-! ### Poll Scheduler, Alarm Set Synchronizer and monitoring effect

`alarmCheckIntervalRef` (App.js line 23) holds the current interval handle;
`startAlarmMonitoring` (lines 156-169) clears it if set, installs a fresh
interval and runs `checkAlarms()` immediately; the monitoring `useEffect`
(lines 57-67) re-runs whenever `alarms` or `isAuthenticated` changes: React
first runs the previous effect's cleanup (which clears the current interval,
without nulling the ref) and then the body, which calls
`startAlarmMonitoring` only when `isAuthenticated && alarms.length > 0`.
`active` is the set of live interval timers the browser would keep firing;
fresh handles come from `nextId`.  `firedLog` accumulates every Notification
Fan-out invocation and `passes` counts `checkAlarms` invocations. -/

structure AppState where
  alarms : List Alarm
  store : Store
  intervalRef : Option Nat
  active : List Nat
  nextId : Nat
  firedLog : List Alarm
  passes : Nat

/-- One `checkAlarms()` invocation over the current state (normal
semantics). -/
def runCheck (now : Int) (st : AppState) : AppState :=
  let r := checkAlarms now st.alarms st.store
  { st with
    store := r.store, firedLog := st.firedLog ++ r.fired, passes := st.passes + 1 }

/-- `if (alarmCheckIntervalRef.current) clearInterval(...)`: cancel the held
interval.  `clearInterval` on a stale handle is a no-op (`List.erase` of an
absent element), and the ref is not nulled, exactly as in the source. -/
def clearCurrent (st : AppState) : AppState :=
  match st.intervalRef with
  | some i => { st with active := st.active.erase i }
  | none => st

/-- `startAlarmMonitoring`, App.js lines 156-169: clear any existing
interval, install a fresh one, store its handle in the ref, and check
immediately. -/
def startAlarmMonitoring (now : Int) (st : AppState) : AppState :=
  let st1 := clearCurrent st
  let st2 := { st1 with
    active := st1.active ++ [st1.nextId], intervalRef := some st1.nextId,
    nextId := st1.nextId + 1 }
  runCheck now st2

/-- The monitoring effect re-running after the alarm list is replaced
(`sync`): previous cleanup (App.js lines 62-66), then the body (lines 58-60),
which re-arms only when authenticated and the new list is non-empty. -/
def syncEffect (now : Int) (auth : Bool) (newAlarms : List Alarm)
    (st : AppState) : AppState :=
  let st1 := clearCurrent st
  let st2 := { st1 with alarms := newAlarms }
  if auth = true ∧ 0 < newAlarms.length then startAlarmMonitoring now st2 else st2

/-- The effect cleanup on unmount of the monitoring context. -/
def teardown (st : AppState) : AppState :=
  clearCurrent st

/-- A browser interval callback: runs `checkAlarms()` only if the timer with
this handle is still live. -/
def timerTick (now : Int) (id : Nat) (st : AppState) : AppState :=
  if id ∈ st.active then runCheck now st else st

/-- The external events driving the engine. -/
inductive Event where
  | sync (now : Int) (auth : Bool) (alarms : List Alarm)
  | tick (now : Int) (id : Nat)
  | unmount
deriving Repr

def applyEvent (st : AppState) : Event → AppState
  | Event.sync now auth l => syncEffect now auth l st
  | Event.tick now id => timerTick now id st
  | Event.unmount => teardown st

def runTrace (st : AppState) : List Event → AppState
  | [] => st
  | e :: es => runTrace (applyEvent st e) es

/-- The freshly mounted application: no alarms, no timer, durable store
`s` (it survives restarts, so it is a parameter). -/
def initState (s : Store) : AppState :=
  { alarms := [], store := s, intervalRef := none, active := [], nextId := 0, firedLog := [], passes := 0 }

theorem clearCurrent_alarms (st : AppState) :
    (clearCurrent st).alarms = st.alarms := by
  unfold clearCurrent
  cases st.intervalRef <;> rfl

theorem clearCurrent_store (st : AppState) :
    (clearCurrent st).store = st.store := by
  unfold clearCurrent
  cases st.intervalRef <;> rfl

theorem clearCurrent_intervalRef (st : AppState) :
    (clearCurrent st).intervalRef = st.intervalRef := by
  unfold clearCurrent
  split <;> rfl

theorem clearCurrent_nextId (st : AppState) :
    (clearCurrent st).nextId = st.nextId := by
  unfold clearCurrent
  cases st.intervalRef <;> rfl

theorem clearCurrent_firedLog (st : AppState) :
    (clearCurrent st).firedLog = st.firedLog := by
  unfold clearCurrent
  cases st.intervalRef <;> rfl

theorem clearCurrent_passes (st : AppState) :
    (clearCurrent st).passes = st.passes := by
  unfold clearCurrent
  cases st.intervalRef <;> rfl

/-- The timer invariant: either no live interval, or exactly one and the ref
holds its handle. -/
def TimerInv (st : AppState) : Prop :=
  st.active = [] ∨ ∃ i, st.active = [i] ∧ st.intervalRef = some i

theorem clearCurrent_active_nil {st : AppState} (h : TimerInv st) :
    (clearCurrent st).active = [] := by
  rcases h with h | ⟨i, ha, hr⟩
  · unfold clearCurrent
    cases hro : st.intervalRef
    · exact h
    · simp [h]
  · unfold clearCurrent
    rw [hr]
    simp [ha]

theorem timerInv_startAlarmMonitoring {st : AppState} (h : TimerInv st)
    (now : Int) : TimerInv (startAlarmMonitoring now st) := by
  right
  refine ⟨(clearCurrent st).nextId, ?_, ?_⟩ <;>
    simp [startAlarmMonitoring, runCheck, clearCurrent_active_nil h]

theorem timerInv_syncEffect {st : AppState} (h : TimerInv st)
    (now : Int) (auth : Bool) (l : List Alarm) :
    TimerInv (syncEffect now auth l st) := by
  unfold syncEffect
  split_ifs with hc
  · have h2 : TimerInv ({ clearCurrent st with alarms := l } : AppState) := by
      left
      show (clearCurrent st).active = []
      exact clearCurrent_active_nil h
    exact timerInv_startAlarmMonitoring h2 now
  · left
    show (clearCurrent st).active = []
    exact clearCurrent_active_nil h

theorem timerInv_applyEvent {st : AppState} (h : TimerInv st) (e : Event) :
    TimerInv (applyEvent st e) := by
  cases e with
  | sync now auth l => exact timerInv_syncEffect h now auth l
  | tick now id =>
    show TimerInv (timerTick now id st)
    unfold timerTick
    split_ifs with hid
    · rcases h with h2 | ⟨i, ha, hr⟩
      · left; exact h2
      · right; exact ⟨i, ha, hr⟩
    · exact h
  | unmount =>
    left
    exact clearCurrent_active_nil h

theorem timerInv_runTrace :
    ∀ (tr : List Event) (st : AppState), TimerInv st → TimerInv (runTrace st tr) := by
  intro tr
  induction tr with
  | nil => intro st h; exact h
  | cons e es ih =>
    intro st h
    exact ih _ (timerInv_applyEvent h e)

theorem runTrace_append (tr1 tr2 : List Event) :
    ∀ st : AppState, runTrace st (tr1 ++ tr2) = runTrace (runTrace st tr1) tr2 := by
  induction tr1 with
  | nil => intro st; rfl
  | cons e es ih => intro st; exact ih (applyEvent st e)

/-- C8: along every event trace from the freshly mounted state — syncs of
the alarm list, timer ticks, unmount — at most one interval timer is live at
any point: `startAlarmMonitoring` cancels the held interval before
installing a new one, and the effect cleanup cancels it before the next body
runs, so re-arming never duplicates timers. -/
theorem at_most_one_timer (s : Store) (tr : List Event) :
    ((runTrace (initState s) tr).active).length ≤ 1 := by
  have h := timerInv_runTrace tr (initState s) (Or.inl rfl)
  rcases h with h | ⟨i, h, _⟩ <;> simp [h]

theorem ticks_noop {st : AppState} (h : st.active = []) :
    ∀ (tr : List Event), (∀ e ∈ tr, ∃ n i, e = Event.tick n i) →
      runTrace st tr = st := by
  intro tr
  induction tr with
  | nil => intro _; rfl
  | cons e es ih =>
    intro hall
    rcases hall e (List.mem_cons_self _ _) with ⟨n, i, rfl⟩
    have hstep : applyEvent st (Event.tick n i) = st := by
      unfold applyEvent timerTick
      rw [h]
      simp
    rw [runTrace, hstep]
    exact ih (fun e2 he2 => hall e2 (List.mem_cons_of_mem _ he2))

/-- C9: when the alarm set becomes empty (a sync with the empty list) or the
monitoring context is torn down (unmount), the pending interval is cancelled
— no timer is live — and subsequent timer ticks run no further evaluation
pass and change nothing at all, until a re-arming sync occurs. -/
theorem stop_on_empty_or_unmount (s : Store) (tr : List Event) (now : Int)
    (auth : Bool) :
    ((runTrace (initState s) (tr ++ [Event.sync now auth []])).active = [] ∧
      ∀ (tr2 : List Event), (∀ e ∈ tr2, ∃ n i, e = Event.tick n i) →
        runTrace (runTrace (initState s) (tr ++ [Event.sync now auth []])) tr2 =
          runTrace (initState s) (tr ++ [Event.sync now auth []])) ∧
    ((runTrace (initState s) (tr ++ [Event.unmount])).active = [] ∧
      ∀ (tr2 : List Event), (∀ e ∈ tr2, ∃ n i, e = Event.tick n i) →
        runTrace (runTrace (initState s) (tr ++ [Event.unmount])) tr2 =
          runTrace (initState s) (tr ++ [Event.unmount])) := by
  have hinv := timerInv_runTrace tr (initState s) (Or.inl rfl)
  have hsync : (runTrace (initState s) (tr ++ [Event.sync now auth []])).active = [] := by
    rw [runTrace_append]
    show (runTrace (applyEvent (runTrace (initState s) tr) (Event.sync now auth [])) []).active = []
    unfold runTrace applyEvent syncEffect
    simp only [List.length_nil, lt_irrefl, and_false, if_false]
    show (clearCurrent (runTrace (initState s) tr)).active = []
    exact clearCurrent_active_nil hinv
  have hun : (runTrace (initState s) (tr ++ [Event.unmount])).active = [] := by
    rw [runTrace_append]
    show (runTrace (applyEvent (runTrace (initState s) tr) Event.unmount) []).active = []
    unfold runTrace applyEvent teardown
    exact clearCurrent_active_nil hinv
  exact ⟨⟨hsync, ticks_noop hsync⟩, ⟨hun, ticks_noop hun⟩⟩

/-- Witness for C9: arm the engine with one alarm, sync the empty list; no
timer is live and a stray tick afterwards changes nothing. -/
theorem stop_on_empty_or_unmount_witness :
    (runTrace (initState emptyStore)
        ([Event.sync 0 true [⟨"a1", "Standup", some 36000000, 15⟩]] ++
          [Event.sync 1 true []])).active = [] ∧
    runTrace (runTrace (initState emptyStore)
        ([Event.sync 0 true [⟨"a1", "Standup", some 36000000, 15⟩]] ++
          [Event.sync 1 true []])) [Event.tick 5 0] =
      runTrace (initState emptyStore)
        ([Event.sync 0 true [⟨"a1", "Standup", some 36000000, 15⟩]] ++
          [Event.sync 1 true []]) := by
  have h := stop_on_empty_or_unmount emptyStore
    [Event.sync 0 true [⟨"a1", "Standup", some 36000000, 15⟩]] 1 true
  refine ⟨h.1.1, h.1.2 [Event.tick 5 0] ?_⟩
  intro e he
  simp only [List.mem_singleton] at he
  exact ⟨5, 0, he⟩

theorem startAlarmMonitoring_passes (now : Int) (st : AppState) :
    (startAlarmMonitoring now st).passes = st.passes + 1 := by
  show ((clearCurrent st).passes + 1 = st.passes + 1)
  rw [clearCurrent_passes]

theorem startAlarmMonitoring_store (now : Int) (st : AppState) :
    (startAlarmMonitoring now st).store =
      (checkAlarms now st.alarms st.store).store := by
  show (checkAlarms now (clearCurrent st).alarms (clearCurrent st).store).store =
    (checkAlarms now st.alarms st.store).store
  rw [clearCurrent_alarms, clearCurrent_store]

theorem startAlarmMonitoring_firedLog (now : Int) (st : AppState) :
    (startAlarmMonitoring now st).firedLog =
      st.firedLog ++ (checkAlarms now st.alarms st.store).fired := by
  show (clearCurrent st).firedLog ++
      (checkAlarms now (clearCurrent st).alarms (clearCurrent st).store).fired =
    st.firedLog ++ (checkAlarms now st.alarms st.store).fired
  rw [clearCurrent_alarms, clearCurrent_store, clearCurrent_firedLog]

theorem syncEffect_pos (now : Int) (l : List Alarm) (st : AppState)
    (hl : 0 < l.length) :
    syncEffect now true l st =
      startAlarmMonitoring now { clearCurrent st with alarms := l } := by
  unfold syncEffect
  rw [if_pos ⟨rfl, hl⟩]

/-- C5 fails as stated: a sync that replaces the alarm list with the empty
list re-runs the monitoring effect, but the body's guard
`isAuthenticated && alarms.length > 0` is false, so no immediate evaluation
pass runs (the pass counter stays at the previous value). -/
theorem sync_immediate_counterexample :
    (syncEffect 0 true [] (initState emptyStore)).passes =
      (initState emptyStore).passes := by
  rfl

/-- C5 (amended): every sync that installs a non-empty alarm list while
authenticated triggers exactly one immediate evaluation pass, before any
timer tick; a sync of the empty list runs no pass (which is observationally
harmless: a pass over no alarms does nothing).  In particular a newly added
alarm whose trigger instant is past, whose event start is future and whose
dedup marker is falsy is fired by that immediate pass and its marker is
recorded. -/
theorem sync_immediate (now : Int) (st : AppState) (l : List Alarm)
    (a : Alarm) (ha : a ∈ l) (hf : fireCond now a = true)
    (hu : jsTruthy (st.store (triggeredKey a)) = false) :
    (∀ (l2 : List Alarm) (st2 : AppState), 0 < l2.length →
      (syncEffect now true l2 st2).passes = st2.passes + 1) ∧
    (∃ b, b ∈ (syncEffect now true l st).firedLog ∧
      triggeredKey b = triggeredKey a) ∧
    (syncEffect now true l st).store (triggeredKey a) = some "true" := by
  have hl : 0 < l.length := List.length_pos.mpr (List.ne_nil_of_mem ha)
  refine ⟨?_, ?_, ?_⟩
  · intro l2 st2 hl2
    rw [syncEffect_pos now l2 st2 hl2, startAlarmMonitoring_passes]
    show (clearCurrent st2).passes + 1 = st2.passes + 1
    rw [clearCurrent_passes]
  · rw [syncEffect_pos now l st hl, startAlarmMonitoring_firedLog]
    have hst : ({ clearCurrent st with alarms := l } : AppState).store = st.store := by
      show (clearCurrent st).store = st.store
      exact clearCurrent_store st
    rw [show ({ clearCurrent st with alarms := l } : AppState).alarms = l from rfl, hst]
    rcases exists_fired l st.store a ha hf hu with ⟨b, hb, hbk⟩
    exact ⟨b, List.mem_append_right _ hb, hbk⟩
  · rw [syncEffect_pos now l st hl, startAlarmMonitoring_store]
    have hst : ({ clearCurrent st with alarms := l } : AppState).store = st.store := by
      show (clearCurrent st).store = st.store
      exact clearCurrent_store st
    rw [show ({ clearCurrent st with alarms := l } : AppState).alarms = l from rfl, hst]
    exact store_marked l st.store a ha hf hu

/-- Witness for C5 (amended), Scenario D: at 09:50:00 a sync delivers the
Scenario A alarm (trigger 09:45:00 already past, start 10:00:00 still
future, marker unset); the immediate pass fires it and records the
marker. -/
theorem sync_immediate_witness :
    ((⟨"a1", "Standup", some 36000000, 15⟩ : Alarm) ∈
        [(⟨"a1", "Standup", some 36000000, 15⟩ : Alarm)] ∧
      fireCond 35400000 (⟨"a1", "Standup", some 36000000, 15⟩ : Alarm) = true ∧
      jsTruthy ((initState emptyStore).store
        (triggeredKey ⟨"a1", "Standup", some 36000000, 15⟩)) = false) ∧
    (∃ b, b ∈ (syncEffect 35400000 true
        [⟨"a1", "Standup", some 36000000, 15⟩] (initState emptyStore)).firedLog ∧
      triggeredKey b = triggeredKey ⟨"a1", "Standup", some 36000000, 15⟩) ∧
    (syncEffect 35400000 true [⟨"a1", "Standup", some 36000000, 15⟩]
        (initState emptyStore)).store
      (triggeredKey ⟨"a1", "Standup", some 36000000, 15⟩) = some "true" := by
  have h := sync_immediate 35400000 (initState emptyStore)
    [⟨"a1", "Standup", some 36000000, 15⟩] ⟨"a1", "Standup", some 36000000, 15⟩
    (List.mem_cons_self _ _) (by decide) rfl
  exact ⟨⟨List.mem_cons_self _ _, by decide, rfl⟩, h.2.1, h.2.2⟩

end CalendarAlarm
